import Mathlib

/-!
Shallow embedding of the hubertmis/modbus library (PDU codecs, link framers,
transport role handling) and proofs about its behaviour.

Modelling conventions:
* Machine integers (`u8`, `u16`) are `Nat` with explicit `% 256` / `% 65536`
  where the Rust code truncates (an `as` cast) and with `< 256` / `< 65536`
  hypotheses where the Rust type system guarantees the bound.
* Byte buffers are `List Nat` (each element a byte value).
* Fallible Rust functions returning `Result<T, Error>` become
  `Except Error T`.
* Rust code that can panic (out-of-bounds indexing, explicit `panic!`) is
  embedded with the explicit outcome type `RunResult`, whose `panicked`
  constructor marks exactly the executions in which the Rust code panics.
* Arithmetic overflow of Rust integers is modelled with release-build
  (wrapping) semantics; where it occurs, a comment points it out.
-/

namespace Modbus

/-- Exception codes, from `src/pdu/mod.rs` (`enum ExceptionCode`). -/
inductive ExceptionCode
  | illegalFunction
  | illegalDataAddress
  | illegalDataValue
  | serverDeviceFailure
  | acknowledge
  | serverDeviceBusy
  | memoryParityError
  | gatewayPathUnavailable
  | gatewayTargetDeviceFailedToRespond
  deriving DecidableEq, Repr

/-- Numeric value of each exception code, from the `ExceptionCode` enum discriminants. -/
def ExceptionCode.toU8 : ExceptionCode → Nat
  | .illegalFunction => 0x01
  | .illegalDataAddress => 0x02
  | .illegalDataValue => 0x03
  | .serverDeviceFailure => 0x04
  | .acknowledge => 0x05
  | .serverDeviceBusy => 0x06
  | .memoryParityError => 0x08
  | .gatewayPathUnavailable => 0x0A
  | .gatewayTargetDeviceFailedToRespond => 0x0B

/-- Error type, from `src/error.rs` (`enum Error`).  The `IoError` and
`SerialError` payloads are external library types (out of scope); the
constructors here drop the payload. -/
inductive Error
  | invalidValue
  | tooShortData
  | invalidData
  | invalidDataLength
  | invalidFunction
  | invalidResponse
  | noResponse
  | exceptionResponse (code : ExceptionCode)
  | invalidRequest
  | missingReqHandler
  | ioError
  | serialError
  deriving DecidableEq, Repr

/-- Decidable equality for `Except`, for evaluating codec results on
concrete inputs. -/
instance {ε α : Type} [DecidableEq ε] [DecidableEq α] : DecidableEq (Except ε α) := fun a b =>
  match a, b with
  | .ok x, .ok y =>
    if h : x = y then .isTrue (by rw [h]) else .isFalse (by intro hc; cases hc; exact h rfl)
  | .error x, .error y =>
    if h : x = y then .isTrue (by rw [h]) else .isFalse (by intro hc; cases hc; exact h rfl)
  | .ok _, .error _ => .isFalse (by intro hc; cases hc)
  | .error _, .ok _ => .isFalse (by intro hc; cases hc)

/-- Outcome of running Rust code that may panic: a successful value, a
returned `Err`, or a panic (out-of-bounds index or explicit `panic!`). -/
inductive RunResult (α : Type)
  | ok : α → RunResult α
  | err : Error → RunResult α
  | panicked : RunResult α
  deriving DecidableEq, Repr

/-- Sequencing an `Except`-returning step into possibly-panicking code:
used to state round-trips whose decoder is embedded with `RunResult`. -/
def bindRR {α : Type} (e : Except Error (List Nat)) (f : List Nat → RunResult α) : RunResult α :=
  match e with
  | .ok l => f l
  | .error err => .err err

/-- The conversion `ExceptionCode::try_from(u8)`, from `src/pdu/mod.rs`. -/
def excTryFrom (v : Nat) : Except Error ExceptionCode :=
  if v = 0x01 then .ok .illegalFunction
  else if v = 0x02 then .ok .illegalDataAddress
  else if v = 0x03 then .ok .illegalDataValue
  else if v = 0x04 then .ok .serverDeviceFailure
  else if v = 0x05 then .ok .acknowledge
  else if v = 0x06 then .ok .serverDeviceBusy
  else if v = 0x08 then .ok .memoryParityError
  else if v = 0x0A then .ok .gatewayPathUnavailable
  else if v = 0x0B then .ok .gatewayTargetDeviceFailedToRespond
  else .error .invalidData

/-- The value of `u16::from_be_bytes([hi, lo])`. -/
def u16be (hi lo : Nat) : Nat := hi * 256 + lo

/-- The bytes of `u16::to_be_bytes` (big endian), for a `u16` value `x`.
The `% 256` on the high byte mirrors the `u16` range. -/
def u16beBytes (x : Nat) : List Nat := [x / 256 % 256, x % 256]

/-- The value of `u16::from_le_bytes([lo, hi])`. -/
def u16le (lo hi : Nat) : Nat := lo + hi * 256

/-- The bytes of `u16::to_le_bytes` (little endian), for a `u16` value `x`. -/
def u16leBytes (x : Nat) : List Nat := [x % 256, x / 256 % 256]

/-- LSB-first packing of a list of bits into one byte value: bit `i` of the
result is `bs[i]`.  This is the per-byte inner loop of the bit-read response
encoders (`byte |= 1 << bit_num`, starting from `0`; the OR of distinct
powers of two is written as a sum). -/
def bitsToNat : List Bool → Nat
  | [] => 0
  | b :: bs => (if b then 1 else 0) + 2 * bitsToNat bs

/-- LSB-first unpacking of a byte value into `k` bits: the per-byte inner
loop of the bit-read response decoders (`data[..] & (1 << bit_num) != 0`). -/
def natToBits : Nat → Nat → List Bool
  | 0, _ => []
  | k + 1, v => (v % 2 == 1) :: natToBits k (v / 2)

/-- The byte-building outer loop of the bit-read response encoders: the
coil list is packed eight bits per byte (`DSCR_PER_BYTE = 8`), the last
byte zero-padded (`bitsToNat` of fewer than eight bits). -/
def packBits : List Bool → List Nat
  | [] => []
  | b0 :: b1 :: b2 :: b3 :: b4 :: b5 :: b6 :: b7 :: rest =>
    bitsToNat [b0, b1, b2, b3, b4, b5, b6, b7] :: packBits rest
  | l => [bitsToNat l]

/-- The bit-extraction outer loop of the bit-read response decoders: each
payload byte contributes eight bits, LSB first. -/
def unpackBits (bytes : List Nat) : List Bool :=
  (bytes.map (natToBits 8)).flatten

/-- Byte count computed by the bit-read response encoders:
`len / 8 + if len % 8 > 0 { 1 } else { 0 }` (with `DSCR_PER_BYTE = 8`). -/
def dscrByteCount (len : Nat) : Nat :=
  len / 8 + if len % 8 > 0 then 1 else 0

/-- Big-endian serialization of a register list, from the register response
encoders' loop (`reg.to_be_bytes()` appended per register). -/
def regsToBytes (rs : List Nat) : List Nat :=
  (rs.map u16beBytes).flatten

/-- Big-endian parsing of consecutive register bytes, from the register
response decoders' loop. -/
def bytesToRegs : List Nat → List Nat
  | a :: b :: rest => u16be a b :: bytesToRegs rest
  | _ => []

/-- Reading `cnt` big-endian registers from `data` starting at index
`start`, as the loop in `write_multi_reg::Request::decode` does with direct
indexing (`data[val_idx..=val_idx+1]`): `none` exactly when the Rust loop
would index out of bounds and panic. -/
def readRegs (data : List Nat) : Nat → Nat → Option (List Nat)
  | _, 0 => some []
  | start, n + 1 =>
    match data.get? start, data.get? (start + 1) with
    | some hi, some lo =>
      match readRegs data (start + 2) n with
      | some rest => some (u16be hi lo :: rest)
      | none => none
    | _, _ => none

namespace read_coils

/-- Read Coils request, from `src/pdu/bit_access/read_coils.rs`. -/
structure Request where
  address : Nat
  quantity : Nat
  deriving DecidableEq, Repr

/-- The function `Request::encode` of `read_coils.rs`
(`FunctionCode::ReadCoils = 0x01`; quantity accepted in `1..=2000`). -/
def Request.encode (r : Request) : Except Error (List Nat) :=
  if 1 ≤ r.quantity ∧ r.quantity ≤ 2000 then
    .ok (0x01 :: (u16beBytes r.address ++ u16beBytes r.quantity))
  else
    .error .invalidValue

/-- The function `Request::decode` of `read_coils.rs`. -/
def Request.decode (data : List Nat) : Except Error Request :=
  if data.length ≠ 5 then .error .invalidDataLength
  else if data.getD 0 0 ≠ 0x01 then .error .invalidData
  else .ok { address := u16be (data.getD 1 0) (data.getD 2 0),
             quantity := u16be (data.getD 3 0) (data.getD 4 0) }

/-- Read Coils response, from `read_coils.rs`. -/
structure Response where
  coils : List Bool
  deriving DecidableEq, Repr

/-- The function `Response::encode` of `read_coils.rs`
(`MAX_BYTE_COUNT = MAX_SIZE - 2 = 251`; byte count `0` and byte counts
above `251` are rejected with `InvalidValue`). -/
def Response.encode (r : Response) : Except Error (List Nat) :=
  let byte_count := dscrByteCount r.coils.length
  if byte_count = 0 then .error .invalidValue
  else if byte_count ≤ 251 then
    .ok (0x01 :: byte_count :: packBits r.coils)
  else .error .invalidValue

/-- The function `Response::decode` of `read_coils.rs`. -/
def Response.decode (data : List Nat) : Except Error Response :=
  if data.length < 3 then .error .invalidDataLength
  else if data.getD 0 0 ≠ 0x01 then .error .invalidData
  else
    let byte_count := data.getD 1 0
    if data.length ≠ byte_count + 2 then .error .invalidDataLength
    else .ok { coils := unpackBits (data.drop 2) }

end read_coils

namespace read_dscr_in

/-- Read Discrete Inputs request, from `src/pdu/bit_access/read_dscr_in.rs`. -/
structure Request where
  address : Nat
  quantity : Nat
  deriving DecidableEq, Repr

/-- The function `Request::encode` of `read_dscr_in.rs`
(`FunctionCode::ReadDscrIn = 0x02`; quantity accepted in `1..=2000`). -/
def Request.encode (r : Request) : Except Error (List Nat) :=
  if 1 ≤ r.quantity ∧ r.quantity ≤ 2000 then
    .ok (0x02 :: (u16beBytes r.address ++ u16beBytes r.quantity))
  else
    .error .invalidValue

/-- The function `Request::decode` of `read_dscr_in.rs`. -/
def Request.decode (data : List Nat) : Except Error Request :=
  if data.length ≠ 5 then .error .invalidDataLength
  else if data.getD 0 0 ≠ 0x02 then .error .invalidData
  else .ok { address := u16be (data.getD 1 0) (data.getD 2 0),
             quantity := u16be (data.getD 3 0) (data.getD 4 0) }

/-- Read Discrete Inputs response, from `read_dscr_in.rs`. -/
structure Response where
  inputs : List Bool
  deriving DecidableEq, Repr

/-- The function `Response::encode` of `read_dscr_in.rs`.  Note: here
`MAX_BYTE_COUNT = MAX_SIZE - 3 = 250` in the source (unlike `read_coils.rs`
which uses `MAX_SIZE - 2 = 251`), and byte count `0` falls into the
catch-all `InvalidValue` arm. -/
def Response.encode (r : Response) : Except Error (List Nat) :=
  let byte_count := dscrByteCount r.inputs.length
  if 1 ≤ byte_count ∧ byte_count ≤ 250 then
    .ok (0x02 :: byte_count :: packBits r.inputs)
  else .error .invalidValue

/-- The function `Response::decode` of `read_dscr_in.rs` (minimum length
check here is `data.len() < 2`, unlike `read_coils.rs` which uses `< 3`). -/
def Response.decode (data : List Nat) : Except Error Response :=
  if data.length < 2 then .error .invalidDataLength
  else if data.getD 0 0 ≠ 0x02 then .error .invalidData
  else
    let byte_count := data.getD 1 0
    if data.length ≠ byte_count + 2 then .error .invalidDataLength
    else .ok { inputs := unpackBits (data.drop 2) }

end read_dscr_in

namespace read_in_reg

/-- Read Input Registers request, from `src/pdu/hex_access/read_in_reg.rs`. -/
structure Request where
  address : Nat
  quantity : Nat
  deriving DecidableEq, Repr

/-- The function `Request::encode` of `read_in_reg.rs`
(`FunctionCode::ReadInReg = 0x04`; `MIN_QUANTITY = 1`, `MAX_QUANTITY = 0x7D`). -/
def Request.encode (r : Request) : Except Error (List Nat) :=
  if 1 ≤ r.quantity ∧ r.quantity ≤ 0x7D then
    .ok (0x04 :: (u16beBytes r.address ++ u16beBytes r.quantity))
  else
    .error .invalidValue

/-- The function `Request::decode` of `read_in_reg.rs`. -/
def Request.decode (data : List Nat) : Except Error Request :=
  if data.length ≠ 5 then .error .invalidDataLength
  else if data.getD 0 0 ≠ 0x04 then .error .invalidData
  else .ok { address := u16be (data.getD 1 0) (data.getD 2 0),
             quantity := u16be (data.getD 3 0) (data.getD 4 0) }

/-- Read Input Registers response, from `read_in_reg.rs`. -/
structure Response where
  registers : List Nat
  deriving DecidableEq, Repr

/-- The function `Response::encode` of `read_in_reg.rs`.  The source
performs no size check at all: it pushes `(registers.len() * 2) as u8`
(truncation modulo 256) and always returns `Ok`. -/
def Response.encode (r : Response) : Except Error (List Nat) :=
  .ok (0x04 :: (r.registers.length * 2 % 256) :: regsToBytes r.registers)

/-- The function `Response::decode` of `read_in_reg.rs`. -/
def Response.decode (data : List Nat) : Except Error Response :=
  if data.length < 2 then .error .invalidDataLength
  else if data.getD 0 0 ≠ 0x04 then .error .invalidData
  else
    let num_bytes := data.getD 1 0
    if num_bytes % 2 ≠ 0 then .error .invalidData
    else if num_bytes ≠ data.length - 2 then .error .invalidDataLength
    else .ok { registers := bytesToRegs (data.drop 2) }

end read_in_reg

namespace read_hld_reg

/-- Modelled from the spec: `src/pdu/hex_access/read_hld_reg.rs` is not
among the provided sources (only its callers in `src/pdu/mod.rs` are).
Per the §4.1 table, Read Holding Registers (code 0x03) has the same shapes
and bounds as Read Input Registers (`addr, qty` with `qty ∈ 1..=125`;
response `byte_count = 2·qty`), so this module mirrors `read_in_reg`
with function code 0x03. -/
structure Request where
  address : Nat
  quantity : Nat
  deriving DecidableEq, Repr

/-- Modelled from the spec: encoder of the Read Holding Registers request
(code 0x03, quantity bounds `1..=125`). -/
def Request.encode (r : Request) : Except Error (List Nat) :=
  if 1 ≤ r.quantity ∧ r.quantity ≤ 0x7D then
    .ok (0x03 :: (u16beBytes r.address ++ u16beBytes r.quantity))
  else
    .error .invalidValue

/-- Modelled from the spec: decoder of the Read Holding Registers request
(checks length and the function-code byte, like the sibling decoders). -/
def Request.decode (data : List Nat) : Except Error Request :=
  if data.length ≠ 5 then .error .invalidDataLength
  else if data.getD 0 0 ≠ 0x03 then .error .invalidData
  else .ok { address := u16be (data.getD 1 0) (data.getD 2 0),
             quantity := u16be (data.getD 3 0) (data.getD 4 0) }

/-- Modelled from the spec: Read Holding Registers response payload. -/
structure Response where
  registers : List Nat
  deriving DecidableEq, Repr

/-- Modelled from the spec: encoder of the Read Holding Registers response
(function code, byte count `2·qty`, then the registers big-endian). -/
def Response.encode (r : Response) : Except Error (List Nat) :=
  .ok (0x03 :: (r.registers.length * 2 % 256) :: regsToBytes r.registers)

/-- Modelled from the spec: decoder of the Read Holding Registers response
(declared byte count must match the remainder and be even). -/
def Response.decode (data : List Nat) : Except Error Response :=
  if data.length < 2 then .error .invalidDataLength
  else if data.getD 0 0 ≠ 0x03 then .error .invalidData
  else
    let num_bytes := data.getD 1 0
    if num_bytes % 2 ≠ 0 then .error .invalidData
    else if num_bytes ≠ data.length - 2 then .error .invalidDataLength
    else .ok { registers := bytesToRegs (data.drop 2) }

end read_hld_reg

namespace write_single_coil

/-- Write Single Coil request/response, from
`src/pdu/bit_access/write_single_coil.rs` (the two-valued `Value` enum
`Off = 0x0000` / `On = 0xFF00` is modelled as `Bool`). -/
structure Message where
  address : Nat
  value : Bool
  deriving DecidableEq, Repr

/-- The function `Message::encode` of `write_single_coil.rs`
(`FunctionCode::WriteSingleCoil = 0x05`; `Value as u16` is `0xFF00` for
`On`, `0x0000` for `Off`). -/
def Message.encode (m : Message) : Except Error (List Nat) :=
  .ok (0x05 :: (u16beBytes m.address ++ u16beBytes (if m.value then 0xFF00 else 0x0000)))

/-- The function `Message::decode` of `write_single_coil.rs`, with the
value field parsed by `Value::try_from([u8; 2])`: only `0x0000` and
`0xFF00` are accepted, anything else is `InvalidData`. -/
def Message.decode (data : List Nat) : Except Error Message :=
  if data.length ≠ 5 then .error .invalidDataLength
  else if data.getD 0 0 ≠ 0x05 then .error .invalidData
  else
    let v := u16be (data.getD 3 0) (data.getD 4 0)
    if v = 0x0000 then .ok { address := u16be (data.getD 1 0) (data.getD 2 0), value := false }
    else if v = 0xFF00 then .ok { address := u16be (data.getD 1 0) (data.getD 2 0), value := true }
    else .error .invalidData

end write_single_coil

namespace write_single_reg

/-- Write Single Register request/response, from
`src/pdu/hex_access/write_single_reg.rs`. -/
structure Message where
  address : Nat
  value : Nat
  deriving DecidableEq, Repr

/-- The function `Message::encode` of `write_single_reg.rs`
(`FunctionCode::WriteSingleReg = 0x06`). -/
def Message.encode (m : Message) : Except Error (List Nat) :=
  .ok (0x06 :: (u16beBytes m.address ++ u16beBytes m.value))

/-- The function `Message::decode` of `write_single_reg.rs`. -/
def Message.decode (data : List Nat) : Except Error Message :=
  if data.length ≠ 5 then .error .invalidDataLength
  else if data.getD 0 0 ≠ 0x06 then .error .invalidData
  else .ok { address := u16be (data.getD 1 0) (data.getD 2 0),
             value := u16be (data.getD 3 0) (data.getD 4 0) }

end write_single_reg

namespace write_multi_reg

/-- Write Multiple Registers request, from
`src/pdu/hex_access/write_multi_reg.rs`.  Its function code `0x10`
(`FunctionCode::WriteMultiReg`) is fixed by that module's tests; the
`FunctionCode` enum in the provided `src/pdu/mod.rs` does not list it. -/
structure Request where
  address : Nat
  values : List Nat
  deriving DecidableEq, Repr

/-- The function `Request::encode` of `write_multi_reg.rs`
(`MIN_QUANTITY = 1`, `MAX_QUANTITY = 123`).  The byte count is computed as
`(values.len() as u8) * 2`: a `u8` truncation followed by a `u8` multiply,
modelled with wrapping semantics. -/
def Request.encode (r : Request) : Except Error (List Nat) :=
  if 1 ≤ r.values.length ∧ r.values.length ≤ 123 then
    .ok (0x10 :: (u16beBytes r.address ++ u16beBytes r.values.length
          ++ [r.values.length % 256 * 2 % 256] ++ regsToBytes r.values))
  else .error .invalidValue

/-- The function `Request::decode` of `write_multi_reg.rs`.  The source
checks `data.len() >= 6` and `data_cnt == quantity * 2` (a `u16`
multiplication, wrapping in release builds: the `% 65536` below), but it
never checks that the buffer actually holds `6 + data_cnt` bytes, so the
register-reading loop can index out of bounds: those executions are
`panicked`. -/
def Request.decode (data : List Nat) : RunResult Request :=
  if data.length < 6 then .err .invalidDataLength
  else if data.getD 0 0 ≠ 0x10 then .err .invalidData
  else
    let quantity := u16be (data.getD 3 0) (data.getD 4 0)
    let data_cnt := data.getD 5 0
    if data_cnt ≠ quantity * 2 % 65536 then .err .invalidDataLength
    else if quantity < 1 ∨ quantity > 123 then .err .invalidData
    else
      match readRegs data 6 quantity with
      | some values => .ok { address := u16be (data.getD 1 0) (data.getD 2 0), values := values }
      | none => .panicked

/-- Write Multiple Registers response, from `write_multi_reg.rs`. -/
structure Response where
  address : Nat
  quantity : Nat
  deriving DecidableEq, Repr

/-- The function `Response::encode` of `write_multi_reg.rs`
(quantity accepted in `1..=123`). -/
def Response.encode (r : Response) : Except Error (List Nat) :=
  if 1 ≤ r.quantity ∧ r.quantity ≤ 123 then
    .ok (0x10 :: (u16beBytes r.address ++ u16beBytes r.quantity))
  else .error .invalidValue

/-- The function `Response::decode` of `write_multi_reg.rs` (no quantity
bound is checked on decode). -/
def Response.decode (data : List Nat) : Except Error Response :=
  if data.length ≠ 5 then .error .invalidDataLength
  else if data.getD 0 0 ≠ 0x10 then .error .invalidData
  else .ok { address := u16be (data.getD 1 0) (data.getD 2 0),
             quantity := u16be (data.getD 3 0) (data.getD 4 0) }

end write_multi_reg

/-- The trait method `Response::decode_exc_rsp` of `src/pdu/mod.rs`: the
buffer must have length exactly 2; when an expected function code is given,
the first byte must equal it; the second byte goes through
`ExceptionCode::try_from`. -/
def decode_exc_rsp (data : List Nat) (exp_fnc_code : Option Nat) : Except Error ExceptionCode :=
  if data.length ≠ 2 then .error .invalidDataLength
  else
    match exp_fnc_code with
    | some c =>
      if data.getD 0 0 ≠ c then .error .invalidData
      else excTryFrom (data.getD 1 0)
    | none => excTryFrom (data.getD 1 0)

/-- The trait default method `Response::decode_response` of
`src/pdu/mod.rs`, shared by every response type: first try the exception
interpretation with that type's `get_exc_function_code()` (`excFn`); on
success fail with `ExceptionResponse`; otherwise run the type's normal
decoder `dec`. -/
def decode_response {α : Type} (excFn : Nat) (dec : List Nat → Except Error α)
    (data : List Nat) : Except Error α :=
  match decode_exc_rsp data (some excFn) with
  | .ok exc_code => .error (.exceptionResponse exc_code)
  | .error _ => dec data

/-- Tagged union of the requests the slave-side dispatcher can produce,
from `enum RequestData` in `src/pdu/mod.rs` (six variants; Write Multiple
Registers is not among them). -/
inductive RequestData
  | readCoils (r : read_coils.Request)
  | readDscrIn (r : read_dscr_in.Request)
  | readHldReg (r : read_hld_reg.Request)
  | readInReg (r : read_in_reg.Request)
  | writeSingleCoil (m : write_single_coil.Message)
  | writeSingleReg (m : write_single_reg.Message)
  deriving DecidableEq, Repr

/-- The dispatcher `decode_req` of `src/pdu/mod.rs`.  `FromPrimitive` maps
the leading byte to a `FunctionCode` variant; the match dispatches the six
request codes `0x01..0x06` and sends everything else, including the
exception codes `0x81..0x86` and the unlisted `0x10`, to `InvalidData`. -/
def decode_req (pdu : List Nat) : Except Error RequestData :=
  if pdu.length < 2 then .error .invalidDataLength
  else if pdu.getD 0 0 = 0x01 then (read_coils.Request.decode pdu).map .readCoils
  else if pdu.getD 0 0 = 0x02 then (read_dscr_in.Request.decode pdu).map .readDscrIn
  else if pdu.getD 0 0 = 0x03 then (read_hld_reg.Request.decode pdu).map .readHldReg
  else if pdu.getD 0 0 = 0x04 then (read_in_reg.Request.decode pdu).map .readInReg
  else if pdu.getD 0 0 = 0x05 then (write_single_coil.Message.decode pdu).map .writeSingleCoil
  else if pdu.getD 0 0 = 0x06 then (write_single_reg.Message.decode pdu).map .writeSingleReg
  else .error .invalidData

namespace rtu

/-- One shift-and-conditional-xor round of the CRC16 calculation. -/
def crcRound (crc : Nat) : Nat :=
  if crc % 2 = 1 then (crc / 2) ^^^ 0xA001 else crc / 2

/-- Folding one message byte into the CRC state: xor the byte in, then
eight rounds. -/
def crcByte (crc b : Nat) : Nat :=
  crcRound^[8] (crc ^^^ b)

/-- Modelled from the spec: the external `crc16` crate's
`State::<MODBUS>::calculate` — the Modbus CRC16 (poly 0xA001, reflected,
init 0xFFFF, no final xor), used by `src/transport/rtu/frame.rs`. -/
def crc16 (data : List Nat) : Nat :=
  data.foldl crcByte 0xFFFF

/-- RTU frame, from `src/transport/rtu/frame.rs` (`struct Frame`). -/
structure Frame where
  address : Nat
  pdu : List Nat
  deriving DecidableEq, Repr

/-- The function `Frame::encode` of `rtu/frame.rs`: address, PDU, then the
CRC over both, low byte first (`to_le_bytes`).  The source wraps the
result in `Ok` unconditionally. -/
def Frame.encode (f : Frame) : Except Error (List Nat) :=
  .ok ((f.address :: f.pdu) ++ u16leBytes (crc16 (f.address :: f.pdu)))

/-- The function `Frame::decode` of `rtu/frame.rs`: length at least 4,
recompute the CRC over all but the last two bytes, compare with the stored
little-endian CRC, and return the address byte plus the inner PDU view
(`&data[1..len-2]`). -/
def Frame.decode (data : List Nat) : Except Error Frame :=
  if data.length < 4 then .error .invalidDataLength
  else
    let expected_crc := crc16 (data.take (data.length - 2))
    let crc := u16le (data.getD (data.length - 2) 0) (data.getD (data.length - 1) 0)
    if expected_crc ≠ crc then .error .invalidData
    else .ok { address := data.getD 0 0, pdu := (data.take (data.length - 2)).drop 1 }

/-- RTU role, from `enum Role` in `src/transport/rtu/conn.rs`. -/
inductive Role
  | master
  | slave (unit_id : Nat)
  deriving DecidableEq, Repr

/-- The function `Rtu::start_slave` of `rtu/conn.rs`: unit ids `1..=247`
set the role to `Slave(unit_id)` and return `Ok`; anything else returns
`InvalidValue` and leaves the role unchanged.  The result pairs the
returned value with the role after the call. -/
def start_slave (unit_id : Nat) (role : Role) : Except Error Unit × Role :=
  if 1 ≤ unit_id ∧ unit_id ≤ 247 then (.ok (), .slave unit_id)
  else (.error .invalidValue, role)

end rtu

namespace tcp

/-- TCP MBAP frame, from `src/transport/tcp/frame.rs` (`struct Frame`). -/
structure Frame where
  transaction_id : Nat
  unit_id : Nat
  pdu : List Nat
  deriving DecidableEq, Repr

/-- The function `Frame::encode` of `tcp/frame.rs`: transaction id,
protocol id `MODBUS_ID = 0`, length `(pdu.len() + 1) as u16` (the `as`
cast wraps), unit id, then the PDU. -/
def Frame.encode (f : Frame) : Except Error (List Nat) :=
  .ok (u16beBytes f.transaction_id ++ u16beBytes 0
       ++ u16beBytes ((f.pdu.length + 1) % 65536) ++ [f.unit_id % 256] ++ f.pdu)

/-- The function `Frame::decode` of `tcp/frame.rs`.  Checks run in source
order: fewer than 8 bytes is `TooShortData`; a nonzero protocol-id field is
`InvalidData`; then the buffer is compared against
`(length_field + 6) as usize` (the `+ 6` is a `u16` addition — wrapping,
in release builds, for length fields above `0xFFF9`: the `% 65536`):
shorter is `TooShortData`, longer is `InvalidDataLength`, equal decodes. -/
def Frame.decode (data : List Nat) : Except Error Frame :=
  if data.length < 8 then .error .tooShortData
  else if u16be (data.getD 2 0) (data.getD 3 0) ≠ 0 then .error .invalidData
  else
    let expected_len := (u16be (data.getD 4 0) (data.getD 5 0) + 6) % 65536
    if data.length < expected_len then .error .tooShortData
    else if data.length > expected_len then .error .invalidDataLength
    else .ok { transaction_id := u16be (data.getD 0 0) (data.getD 1 0),
               unit_id := data.getD 6 0,
               pdu := data.drop 7 }

/-- The byte-at-a-time receive loop of `Tcp::read_pdu` in
`src/transport/tcp/conn.rs`, run over the stream of bytes the peer sends
(`acc` is the accumulated buffer).  After each byte the frame decoder runs:
`TooShortData` keeps reading; a decoded frame is checked against the
expected unit id; any other decode error hits the source's
`panic!("Unexpected parsing error")`.  An exhausted stream is the peer
closing the connection (`Ok(0)`), which the source maps to
`InvalidDataLength`. -/
def readPduLoop (expected_unit : Nat) : List Nat → List Nat → RunResult (List Nat)
  | _, [] => .err .invalidDataLength
  | acc, b :: rest =>
    let acc' := acc ++ [b]
    match Frame.decode acc' with
    | .error .tooShortData => readPduLoop expected_unit acc' rest
    | .ok frame =>
      if frame.unit_id = expected_unit then .ok frame.pdu else .err .invalidData
    | .error _ => .panicked

/-- The function `Tcp::read_pdu` of `tcp/conn.rs`, fed the peer's bytes. -/
def read_pdu (incoming : List Nat) (expected_unit : Nat) : RunResult (List Nat) :=
  readPduLoop expected_unit [] incoming

/-- TCP transport state, from `struct Tcp` in `tcp/conn.rs`: the unit id
and whether a listener is bound (the `Option<TcpListener>` reduced to its
presence). -/
structure State where
  unit_id : Nat
  listener_bound : Bool
  deriving DecidableEq, Repr

/-- The function `Tcp::start_slave` of `tcp/conn.rs`: it performs no
validation of `unit_id` — it stores it and binds the listener.  The OS
bind call is out of scope and modelled as succeeding. -/
def start_slave (unit_id : Nat) (_s : State) : Except Error Unit × State :=
  (.ok (), { unit_id := unit_id, listener_bound := true })

end tcp

/-! ### Helper lemmas -/

theorem ok_bind {α : Type} (l : List Nat) (f : List Nat → Except Error α) :
    (Except.ok l).bind f = f l := rfl

theorem u16be_lt {hi lo : Nat} (hhi : hi < 256) (hlo : lo < 256) : u16be hi lo < 65536 := by
  unfold u16be; omega

theorem u16be_split {x : Nat} (hx : x < 65536) : u16be (x / 256 % 256) (x % 256) = x := by
  unfold u16be
  have h : x / 256 < 256 := by omega
  rw [Nat.mod_eq_of_lt h]
  omega

theorem u16le_split {x : Nat} (hx : x < 65536) : u16le (x % 256) (x / 256 % 256) = x := by
  unfold u16le
  have h : x / 256 < 256 := by omega
  rw [Nat.mod_eq_of_lt h]
  omega

theorem natToBits_zero (k : Nat) : natToBits k 0 = List.replicate k false := by
  induction k with
  | zero => rfl
  | succ k ih => simp [natToBits, ih, List.replicate_succ]

theorem natToBits_bitsToNat {k : Nat} {bs : List Bool} (h : bs.length ≤ k) :
    natToBits k (bitsToNat bs) = bs ++ List.replicate (k - bs.length) false := by
  induction k generalizing bs with
  | zero =>
    have : bs = [] := List.length_eq_zero.mp (Nat.le_zero.mp h)
    simp [this, natToBits, bitsToNat]
  | succ k ih =>
    cases bs with
    | nil => simpa [bitsToNat, natToBits] using natToBits_zero (k + 1)
    | cons b bs' =>
      have hlen : bs'.length ≤ k := by simpa using h
      have hdiv : ((if b then 1 else 0) + 2 * bitsToNat bs') / 2 = bitsToNat bs' := by
        cases b
        · simp
        · simp
          omega
      have hmod : (((if b then 1 else 0) + 2 * bitsToNat bs') % 2 == 1) = b := by
        cases b <;> simp [Nat.add_mul_mod_self_left]
      simp only [bitsToNat, natToBits, hdiv, hmod, ih hlen, List.cons_append,
        List.length_cons, Nat.succ_sub_succ]

theorem packBits_length (l : List Bool) : (packBits l).length = dscrByteCount l.length := by
  induction l using packBits.induct with
  | case1 => simp [packBits, dscrByteCount]
  | case2 b0 b1 b2 b3 b4 b5 b6 b7 rest ih =>
    simp only [packBits, List.length_cons, ih, dscrByteCount]
    split_ifs <;> omega
  | case3 l h1 h2 =>
    rcases l with _ | ⟨b0, _ | ⟨b1, _ | ⟨b2, _ | ⟨b3, _ | ⟨b4, _ | ⟨b5, _ | ⟨b6, _ | ⟨b7, rest⟩⟩⟩⟩⟩⟩⟩⟩
    · exact (h1 rfl).elim
    · simp [packBits, dscrByteCount]
    · simp [packBits, dscrByteCount]
    · simp [packBits, dscrByteCount]
    · simp [packBits, dscrByteCount]
    · simp [packBits, dscrByteCount]
    · simp [packBits, dscrByteCount]
    · simp [packBits, dscrByteCount]
    · exact (h2 b0 b1 b2 b3 b4 b5 b6 b7 rest rfl).elim

theorem bitsToNat_lt (bs : List Bool) : bitsToNat bs < 2 ^ bs.length := by
  induction bs with
  | nil => simp [bitsToNat]
  | cons b bs ih =>
    simp only [bitsToNat, List.length_cons, Nat.pow_succ]
    cases b <;> simp <;> omega

theorem unpackBits_cons (x : Nat) (xs : List Nat) :
    unpackBits (x :: xs) = natToBits 8 x ++ unpackBits xs := by
  simp [unpackBits]

theorem unpack_pack (l : List Bool) : (unpackBits (packBits l)).take l.length = l := by
  induction l using packBits.induct with
  | case1 => simp [packBits, unpackBits]
  | case2 b0 b1 b2 b3 b4 b5 b6 b7 rest ih =>
    have h8 : natToBits 8 (bitsToNat [b0, b1, b2, b3, b4, b5, b6, b7]) =
        [b0, b1, b2, b3, b4, b5, b6, b7] := by
      simpa using @natToBits_bitsToNat 8 [b0, b1, b2, b3, b4, b5, b6, b7] (by simp)
    simp only [packBits, unpackBits_cons, h8]
    rw [List.take_append_eq_append_take]
    simp only [List.length_cons, List.length_nil]
    have hlen : rest.length + 1 + 1 + 1 + 1 + 1 + 1 + 1 + 1 - 8 = rest.length := by omega
    rw [List.take_of_length_le (by simp), hlen]
    simp [ih]
  | case3 l h1 h2 =>
    rcases l with _ | ⟨b0, _ | ⟨b1, _ | ⟨b2, _ | ⟨b3, _ | ⟨b4, _ | ⟨b5, _ | ⟨b6, _ | ⟨b7, rest⟩⟩⟩⟩⟩⟩⟩⟩
    · exact (h1 rfl).elim
    · simp [packBits, unpackBits_cons, unpackBits,
        @natToBits_bitsToNat 8 [b0] (by simp)]
    · simp [packBits, unpackBits_cons, unpackBits,
        @natToBits_bitsToNat 8 [b0, b1] (by simp)]
    · simp [packBits, unpackBits_cons, unpackBits,
        @natToBits_bitsToNat 8 [b0, b1, b2] (by simp)]
    · simp [packBits, unpackBits_cons, unpackBits,
        @natToBits_bitsToNat 8 [b0, b1, b2, b3] (by simp)]
    · simp [packBits, unpackBits_cons, unpackBits,
        @natToBits_bitsToNat 8 [b0, b1, b2, b3, b4] (by simp)]
    · simp [packBits, unpackBits_cons, unpackBits,
        @natToBits_bitsToNat 8 [b0, b1, b2, b3, b4, b5] (by simp)]
    · simp [packBits, unpackBits_cons, unpackBits,
        @natToBits_bitsToNat 8 [b0, b1, b2, b3, b4, b5, b6] (by simp)]
    · exact (h2 b0 b1 b2 b3 b4 b5 b6 b7 rest rfl).elim

theorem regsToBytes_length (rs : List Nat) : (regsToBytes rs).length = 2 * rs.length := by
  induction rs with
  | nil => simp [regsToBytes]
  | cons r rs ih =>
    simp only [regsToBytes, List.map_cons, List.flatten_cons] at ih ⊢
    simp [u16beBytes, ih]
    omega

theorem regsToBytes_cons (r : Nat) (rs : List Nat) :
    regsToBytes (r :: rs) = r / 256 % 256 :: r % 256 :: regsToBytes rs := by
  simp [regsToBytes, u16beBytes]

theorem bytesToRegs_regsToBytes {rs : List Nat} (h : ∀ r ∈ rs, r < 65536) :
    bytesToRegs (regsToBytes rs) = rs := by
  induction rs with
  | nil => simp [regsToBytes, bytesToRegs]
  | cons r rs ih =>
    have hr : r < 65536 := h r (by simp)
    have hrest : ∀ x ∈ rs, x < 65536 := fun x hx => h x (by simp [hx])
    rw [regsToBytes_cons]
    simp only [bytesToRegs]
    rw [ih hrest, u16be_split hr]

theorem readRegs_append {rs : List Nat} (pre : List Nat) (h : ∀ r ∈ rs, r < 65536) :
    readRegs (pre ++ regsToBytes rs) pre.length rs.length = some rs := by
  induction rs generalizing pre with
  | nil => simp [readRegs]
  | cons r rest ih =>
    have hr : r < 65536 := h r (by simp)
    have hrest : ∀ x ∈ rest, x < 65536 := fun x hx => h x (by simp [hx])
    have hget0 : (pre ++ regsToBytes (r :: rest)).get? pre.length = some (r / 256 % 256) := by
      rw [List.get?_append_right (Nat.le_refl _)]
      simp [regsToBytes, u16beBytes]
    have hget1 : (pre ++ regsToBytes (r :: rest)).get? (pre.length + 1) = some (r % 256) := by
      rw [List.get?_append_right (Nat.le_succ_of_le (Nat.le_refl _))]
      simp [regsToBytes, u16beBytes]
    have hrec : pre ++ regsToBytes (r :: rest) =
        (pre ++ [r / 256 % 256, r % 256]) ++ regsToBytes rest := by
      simp [regsToBytes, u16beBytes]
    simp only [List.length_cons, readRegs, hget0, hget1]
    have hlen : pre.length + 2 = (pre ++ [r / 256 % 256, r % 256]).length := by simp
    rw [hrec, hlen, ih (pre ++ [r / 256 % 256, r % 256]) hrest]
    rw [u16be_split hr]

theorem crcRound_lt {c : Nat} (hc : c < 65536) : rtu.crcRound c < 65536 := by
  unfold rtu.crcRound
  have h1 : c / 2 < 65536 := by omega
  split
  · have : c / 2 ^^^ 0xA001 < 2 ^ 16 := Nat.bitwise_lt (by simpa using h1) (by norm_num)
    simpa using this
  · exact h1

theorem crcIter_lt (n : Nat) {c : Nat} (hc : c < 65536) : rtu.crcRound^[n] c < 65536 := by
  induction n generalizing c with
  | zero => simpa using hc
  | succ k ih =>
    rw [Function.iterate_succ_apply]
    exact ih (crcRound_lt hc)

theorem crcByte_lt {c b : Nat} (hc : c < 65536) (hb : b < 256) : rtu.crcByte c b < 65536 := by
  unfold rtu.crcByte
  have hxor : c ^^^ b < 2 ^ 16 :=
    Nat.bitwise_lt (by simpa using hc) (by omega)
  exact crcIter_lt 8 (by simpa using hxor)

theorem crc16_lt {l : List Nat} (h : ∀ b ∈ l, b < 256) : rtu.crc16 l < 65536 := by
  suffices haux : ∀ (l : List Nat) (c : Nat), c < 65536 → (∀ b ∈ l, b < 256) →
      l.foldl rtu.crcByte c < 65536 by
    exact haux l 0xFFFF (by norm_num) h
  intro l
  induction l with
  | nil => intro c hc _; simpa using hc
  | cons x xs ih =>
    intro c hc hb
    simp only [List.foldl_cons]
    exact ih _ (crcByte_lt hc (hb x (by simp))) (fun b hbm => hb b (by simp [hbm]))

theorem getD_append_fst (l : List Nat) (a b : Nat) :
    (l ++ [a, b]).getD l.length 0 = a := by
  rw [List.getD_append_right l [a, b] 0 l.length (Nat.le_refl _)]
  simp

theorem getD_append_snd (l : List Nat) (a b : Nat) :
    (l ++ [a, b]).getD (l.length + 1) 0 = b := by
  rw [List.getD_append_right l [a, b] 0 (l.length + 1) (Nat.le_succ_of_le (Nat.le_refl _))]
  simp

/-! ### Round-trip helper lemmas, one per codec -/

theorem rc_req_rt (a q : Nat) (ha : a < 65536) (h1 : 1 ≤ q) (h2 : q ≤ 2000) :
    (read_coils.Request.encode { address := a, quantity := q }).bind read_coils.Request.decode
      = .ok { address := a, quantity := q } := by
  have hq : q < 65536 := by omega
  unfold read_coils.Request.encode
  rw [if_pos ⟨h1, h2⟩]
  show read_coils.Request.decode (0x01 :: (u16beBytes a ++ u16beBytes q)) = _
  unfold read_coils.Request.decode u16beBytes
  simp only [List.cons_append, List.nil_append, List.length_cons, List.length_nil,
    List.getD_cons_zero, List.getD_cons_succ]
  norm_num
  rw [u16be_split ha, u16be_split hq]
  exact ⟨rfl, rfl⟩

theorem rdi_req_rt (a q : Nat) (ha : a < 65536) (h1 : 1 ≤ q) (h2 : q ≤ 2000) :
    (read_dscr_in.Request.encode { address := a, quantity := q }).bind read_dscr_in.Request.decode
      = .ok { address := a, quantity := q } := by
  have hq : q < 65536 := by omega
  unfold read_dscr_in.Request.encode
  rw [if_pos ⟨h1, h2⟩]
  show read_dscr_in.Request.decode (0x02 :: (u16beBytes a ++ u16beBytes q)) = _
  unfold read_dscr_in.Request.decode u16beBytes
  simp only [List.cons_append, List.nil_append, List.length_cons, List.length_nil,
    List.getD_cons_zero, List.getD_cons_succ]
  norm_num
  rw [u16be_split ha, u16be_split hq]
  exact ⟨rfl, rfl⟩

theorem rhr_req_rt (a q : Nat) (ha : a < 65536) (h1 : 1 ≤ q) (h2 : q ≤ 125) :
    (read_hld_reg.Request.encode { address := a, quantity := q }).bind read_hld_reg.Request.decode
      = .ok { address := a, quantity := q } := by
  have hq : q < 65536 := by omega
  unfold read_hld_reg.Request.encode
  rw [if_pos ⟨h1, h2⟩]
  show read_hld_reg.Request.decode (0x03 :: (u16beBytes a ++ u16beBytes q)) = _
  unfold read_hld_reg.Request.decode u16beBytes
  simp only [List.cons_append, List.nil_append, List.length_cons, List.length_nil,
    List.getD_cons_zero, List.getD_cons_succ]
  norm_num
  rw [u16be_split ha, u16be_split hq]
  exact ⟨rfl, rfl⟩

theorem rir_req_rt (a q : Nat) (ha : a < 65536) (h1 : 1 ≤ q) (h2 : q ≤ 125) :
    (read_in_reg.Request.encode { address := a, quantity := q }).bind read_in_reg.Request.decode
      = .ok { address := a, quantity := q } := by
  have hq : q < 65536 := by omega
  unfold read_in_reg.Request.encode
  rw [if_pos ⟨h1, h2⟩]
  show read_in_reg.Request.decode (0x04 :: (u16beBytes a ++ u16beBytes q)) = _
  unfold read_in_reg.Request.decode u16beBytes
  simp only [List.cons_append, List.nil_append, List.length_cons, List.length_nil,
    List.getD_cons_zero, List.getD_cons_succ]
  norm_num
  rw [u16be_split ha, u16be_split hq]
  exact ⟨rfl, rfl⟩

theorem dscrByteCount_pos {n : Nat} (h : 1 ≤ n) : 1 ≤ dscrByteCount n := by
  unfold dscrByteCount
  split_ifs <;> omega

theorem dscrByteCount_le {n m : Nat} (h : n ≤ 8 * m) : dscrByteCount n ≤ m := by
  unfold dscrByteCount
  split_ifs <;> omega

theorem rc_rsp_rt (coils : List Bool) (h1 : 1 ≤ coils.length) (h2 : coils.length ≤ 2008) :
    ((read_coils.Response.encode { coils := coils }).bind read_coils.Response.decode).map
      (fun r => r.coils.take coils.length) = .ok coils := by
  have hbc1 : 1 ≤ dscrByteCount coils.length := dscrByteCount_pos h1
  have hbc2 : dscrByteCount coils.length ≤ 251 := dscrByteCount_le (by omega)
  simp only [read_coils.Response.encode]
  rw [if_neg (by omega), if_pos hbc2]
  show (read_coils.Response.decode
    (0x01 :: dscrByteCount coils.length :: packBits coils)).map _ = _
  unfold read_coils.Response.decode
  have hlen : (0x01 :: dscrByteCount coils.length :: packBits coils).length
      = dscrByteCount coils.length + 2 := by
    simp [packBits_length]
  rw [hlen]
  simp only [List.getD_cons_zero, List.getD_cons_succ, List.drop_succ_cons, List.drop_zero]
  rw [if_neg (by omega), if_neg (by norm_num), if_neg (by omega)]
  simp [Except.map, unpack_pack]

theorem rdi_rsp_rt (inputs : List Bool) (h1 : 1 ≤ inputs.length) (h2 : inputs.length ≤ 2000) :
    ((read_dscr_in.Response.encode { inputs := inputs }).bind read_dscr_in.Response.decode).map
      (fun r => r.inputs.take inputs.length) = .ok inputs := by
  have hbc1 : 1 ≤ dscrByteCount inputs.length := dscrByteCount_pos h1
  have hbc2 : dscrByteCount inputs.length ≤ 250 := dscrByteCount_le (by omega)
  simp only [read_dscr_in.Response.encode]
  rw [if_pos ⟨hbc1, hbc2⟩]
  show (read_dscr_in.Response.decode
    (0x02 :: dscrByteCount inputs.length :: packBits inputs)).map _ = _
  unfold read_dscr_in.Response.decode
  have hlen : (0x02 :: dscrByteCount inputs.length :: packBits inputs).length
      = dscrByteCount inputs.length + 2 := by
    simp [packBits_length]
  rw [hlen]
  simp only [List.getD_cons_zero, List.getD_cons_succ, List.drop_succ_cons, List.drop_zero]
  rw [if_neg (by omega), if_neg (by norm_num), if_neg (by omega)]
  simp [Except.map, unpack_pack]

theorem rhr_rsp_rt (regs : List Nat) (h1 : 1 ≤ regs.length) (h2 : regs.length ≤ 125)
    (hr : ∀ r ∈ regs, r < 65536) :
    (read_hld_reg.Response.encode { registers := regs }).bind read_hld_reg.Response.decode
      = .ok { registers := regs } := by
  have hmod : regs.length * 2 % 256 = regs.length * 2 := Nat.mod_eq_of_lt (by omega)
  unfold read_hld_reg.Response.encode
  show read_hld_reg.Response.decode
    (0x03 :: (regs.length * 2 % 256) :: regsToBytes regs) = _
  unfold read_hld_reg.Response.decode
  have hlen : (0x03 :: (regs.length * 2 % 256) :: regsToBytes regs).length
      = regs.length * 2 + 2 := by
    simp [regsToBytes_length, hmod]
    omega
  rw [hlen]
  simp only [List.getD_cons_zero, List.getD_cons_succ, List.drop_succ_cons, List.drop_zero, hmod]
  rw [if_neg (by omega), if_neg (by norm_num), if_neg (by omega), if_neg (by omega)]
  rw [bytesToRegs_regsToBytes hr]

theorem rir_rsp_rt (regs : List Nat) (h1 : 1 ≤ regs.length) (h2 : regs.length ≤ 125)
    (hr : ∀ r ∈ regs, r < 65536) :
    (read_in_reg.Response.encode { registers := regs }).bind read_in_reg.Response.decode
      = .ok { registers := regs } := by
  have hmod : regs.length * 2 % 256 = regs.length * 2 := Nat.mod_eq_of_lt (by omega)
  unfold read_in_reg.Response.encode
  show read_in_reg.Response.decode
    (0x04 :: (regs.length * 2 % 256) :: regsToBytes regs) = _
  unfold read_in_reg.Response.decode
  have hlen : (0x04 :: (regs.length * 2 % 256) :: regsToBytes regs).length
      = regs.length * 2 + 2 := by
    simp [regsToBytes_length, hmod]
    omega
  rw [hlen]
  simp only [List.getD_cons_zero, List.getD_cons_succ, List.drop_succ_cons, List.drop_zero, hmod]
  rw [if_neg (by omega), if_neg (by norm_num), if_neg (by omega), if_neg (by omega)]
  rw [bytesToRegs_regsToBytes hr]

theorem wsc_rt (a : Nat) (v : Bool) (ha : a < 65536) :
    (write_single_coil.Message.encode { address := a, value := v }).bind
      write_single_coil.Message.decode = .ok { address := a, value := v } := by
  have haddr : a / 256 % 256 * 256 + a % 256 = a := by omega
  cases v with
  | false =>
    have henc : write_single_coil.Message.encode { address := a, value := false }
        = .ok [0x05, a / 256 % 256, a % 256, 0x00, 0x00] := by
      unfold write_single_coil.Message.encode u16beBytes
      norm_num
    rw [henc, ok_bind]
    unfold write_single_coil.Message.decode
    simp only [List.length_cons, List.length_nil, List.getD_cons_zero, List.getD_cons_succ]
    norm_num [u16be, haddr]
  | true =>
    have henc : write_single_coil.Message.encode { address := a, value := true }
        = .ok [0x05, a / 256 % 256, a % 256, 0xFF, 0x00] := by
      unfold write_single_coil.Message.encode u16beBytes
      norm_num
    rw [henc, ok_bind]
    unfold write_single_coil.Message.decode
    simp only [List.length_cons, List.length_nil, List.getD_cons_zero, List.getD_cons_succ]
    norm_num [u16be, haddr]

theorem wsr_rt (a v : Nat) (ha : a < 65536) (hv : v < 65536) :
    (write_single_reg.Message.encode { address := a, value := v }).bind
      write_single_reg.Message.decode = .ok { address := a, value := v } := by
  unfold write_single_reg.Message.encode
  show write_single_reg.Message.decode (0x06 :: (u16beBytes a ++ u16beBytes v)) = _
  unfold write_single_reg.Message.decode u16beBytes
  simp only [List.cons_append, List.nil_append, List.length_cons, List.length_nil,
    List.getD_cons_zero, List.getD_cons_succ]
  norm_num
  rw [u16be_split ha, u16be_split hv]
  exact ⟨rfl, rfl⟩

theorem wmr_req_rt (a : Nat) (vals : List Nat) (ha : a < 65536)
    (h1 : 1 ≤ vals.length) (h2 : vals.length ≤ 123) (hv : ∀ r ∈ vals, r < 65536) :
    bindRR (write_multi_reg.Request.encode { address := a, values := vals })
      write_multi_reg.Request.decode = .ok { address := a, values := vals } := by
  have hn : vals.length < 65536 := by omega
  unfold write_multi_reg.Request.encode
  rw [if_pos ⟨h1, h2⟩]
  show write_multi_reg.Request.decode
    (0x10 :: (u16beBytes a ++ u16beBytes vals.length
      ++ [vals.length % 256 * 2 % 256] ++ regsToBytes vals)) = _
  unfold write_multi_reg.Request.decode u16beBytes
  have hbc : vals.length % 256 * 2 % 256 = vals.length * 2 := by omega
  simp only [List.cons_append, List.nil_append, List.length_cons, List.length_append,
    List.getD_cons_zero, List.getD_cons_succ, hbc]
  rw [u16be_split hn]
  rw [if_neg (by simp [regsToBytes_length]), if_neg (by norm_num),
    if_neg (by omega), if_neg (by omega)]
  have hpre : (0x10 : Nat) :: a / 256 % 256 :: a % 256 :: vals.length / 256 % 256 ::
      vals.length % 256 :: vals.length * 2 :: regsToBytes vals =
      [0x10, a / 256 % 256, a % 256, vals.length / 256 % 256, vals.length % 256,
        vals.length * 2] ++ regsToBytes vals := rfl
  rw [hpre, show (6 : Nat) = ([0x10, a / 256 % 256, a % 256, vals.length / 256 % 256,
    vals.length % 256, vals.length * 2] : List Nat).length from rfl,
    readRegs_append _ hv]
  rw [u16be_split ha]

theorem wmr_rsp_rt (a q : Nat) (ha : a < 65536) (h1 : 1 ≤ q) (h2 : q ≤ 123) :
    (write_multi_reg.Response.encode { address := a, quantity := q }).bind
      write_multi_reg.Response.decode = .ok { address := a, quantity := q } := by
  have hq : q < 65536 := by omega
  unfold write_multi_reg.Response.encode
  rw [if_pos ⟨h1, h2⟩]
  show write_multi_reg.Response.decode (0x10 :: (u16beBytes a ++ u16beBytes q)) = _
  unfold write_multi_reg.Response.decode u16beBytes
  simp only [List.cons_append, List.nil_append, List.length_cons, List.length_nil,
    List.getD_cons_zero, List.getD_cons_succ]
  norm_num
  rw [u16be_split ha, u16be_split hq]
  exact ⟨rfl, rfl⟩

/-! ### Claim theorems -/

/-- C1: the claim says every decode path returns a `Result` and never
panics on externally-sourced bytes.  The code panics on two such paths:
`write_multi_reg::Request::decode` never checks that the buffer holds the
`6 + byte_count` bytes its register loop reads, so the six-byte buffer
`10 00 00 00 02 04` (quantity 2, byte count 4, no payload) indexes out of
bounds; and `Tcp::read_pdu` hits its explicit
`panic!("Unexpected parsing error")` when the accumulated frame decodes to
any error other than `TooShortData` — for instance after a peer sends the
eight bytes `00 00 01 00 00 00 00 00`, whose protocol-id field is
nonzero. -/
theorem decode_paths_can_panic :
    write_multi_reg.Request.decode [0x10, 0x00, 0x00, 0x00, 0x02, 0x04] = .panicked ∧
    tcp.read_pdu [0x00, 0x00, 0x01, 0x00, 0x00, 0x00, 0x00, 0x00] 1 = .panicked := by
  decide

/-- C2 counterexample: the claim's round-trip is quantified over values
within the §4.1 stated bounds, and for Read Discrete Inputs responses the
stated bound is `byte_count ≤ MAX_SIZE − 2 = 251`.  A response of 2008
inputs has byte count exactly 251, yet its encoder rejects it with
`InvalidValue` (the source caps at `MAX_SIZE - 3 = 250`), so
`decode(encode(x))` cannot equal `x` there. -/
theorem rdi_rsp_within_claimed_bound_fails :
    dscrByteCount (List.replicate 2008 true).length = 251 ∧
    read_dscr_in.Response.encode { inputs := List.replicate 2008 true } =
      .error .invalidValue := by
  constructor
  · rw [List.length_replicate]
    decide
  · show (if 1 ≤ dscrByteCount (List.replicate 2008 true).length ∧
        dscrByteCount (List.replicate 2008 true).length ≤ 250 then
        Except.ok (0x02 :: dscrByteCount (List.replicate 2008 true).length ::
          packBits (List.replicate 2008 true)) else Except.error Error.invalidValue)
      = Except.error Error.invalidValue
    rw [List.length_replicate]
    rw [if_neg (by decide)]

/-- C2 (amended): for every §4.1 function, requests and responses within
their bounds round-trip through encode then decode — with the bit-read
responses truncated to the original number of bits, and with the Read
Discrete Inputs response bound tightened to the code's
`byte_count ≤ 250`, i.e. at most 2000 input bits (2008 for Read Coils,
whose cap is 251). -/
theorem pdu_codec_roundtrip :
    (∀ a q : Nat, a < 65536 → 1 ≤ q → q ≤ 2000 →
      (read_coils.Request.encode { address := a, quantity := q }).bind read_coils.Request.decode
        = .ok { address := a, quantity := q }) ∧
    (∀ coils : List Bool, 1 ≤ coils.length → coils.length ≤ 2008 →
      ((read_coils.Response.encode { coils := coils }).bind read_coils.Response.decode).map
        (fun r => r.coils.take coils.length) = .ok coils) ∧
    (∀ a q : Nat, a < 65536 → 1 ≤ q → q ≤ 2000 →
      (read_dscr_in.Request.encode { address := a, quantity := q }).bind
        read_dscr_in.Request.decode = .ok { address := a, quantity := q }) ∧
    (∀ inputs : List Bool, 1 ≤ inputs.length → inputs.length ≤ 2000 →
      ((read_dscr_in.Response.encode { inputs := inputs }).bind read_dscr_in.Response.decode).map
        (fun r => r.inputs.take inputs.length) = .ok inputs) ∧
    (∀ a q : Nat, a < 65536 → 1 ≤ q → q ≤ 125 →
      (read_hld_reg.Request.encode { address := a, quantity := q }).bind
        read_hld_reg.Request.decode = .ok { address := a, quantity := q }) ∧
    (∀ regs : List Nat, 1 ≤ regs.length → regs.length ≤ 125 → (∀ r ∈ regs, r < 65536) →
      (read_hld_reg.Response.encode { registers := regs }).bind read_hld_reg.Response.decode
        = .ok { registers := regs }) ∧
    (∀ a q : Nat, a < 65536 → 1 ≤ q → q ≤ 125 →
      (read_in_reg.Request.encode { address := a, quantity := q }).bind
        read_in_reg.Request.decode = .ok { address := a, quantity := q }) ∧
    (∀ regs : List Nat, 1 ≤ regs.length → regs.length ≤ 125 → (∀ r ∈ regs, r < 65536) →
      (read_in_reg.Response.encode { registers := regs }).bind read_in_reg.Response.decode
        = .ok { registers := regs }) ∧
    (∀ (a : Nat) (v : Bool), a < 65536 →
      (write_single_coil.Message.encode { address := a, value := v }).bind
        write_single_coil.Message.decode = .ok { address := a, value := v }) ∧
    (∀ a v : Nat, a < 65536 → v < 65536 →
      (write_single_reg.Message.encode { address := a, value := v }).bind
        write_single_reg.Message.decode = .ok { address := a, value := v }) ∧
    (∀ (a : Nat) (vals : List Nat), a < 65536 → 1 ≤ vals.length → vals.length ≤ 123 →
      (∀ r ∈ vals, r < 65536) →
      bindRR (write_multi_reg.Request.encode { address := a, values := vals })
        write_multi_reg.Request.decode = .ok { address := a, values := vals }) ∧
    (∀ a q : Nat, a < 65536 → 1 ≤ q → q ≤ 123 →
      (write_multi_reg.Response.encode { address := a, quantity := q }).bind
        write_multi_reg.Response.decode = .ok { address := a, quantity := q }) :=
  ⟨rc_req_rt, rc_rsp_rt, rdi_req_rt, rdi_rsp_rt, rhr_req_rt, rhr_rsp_rt, rir_req_rt,
    rir_rsp_rt, wsc_rt, wsr_rt, wmr_req_rt, wmr_rsp_rt⟩

/-- C2 witness: concrete instances — the spec's Read Coils request
example, the spec's 19-coil response example (truncated to 19 bits), and
the spec's Write Multiple Registers example. -/
theorem pdu_codec_roundtrip_witness :
    (read_coils.Request.encode { address := 0x1234, quantity := 0x00CD }).bind
      read_coils.Request.decode = .ok { address := 0x1234, quantity := 0x00CD } ∧
    ((read_coils.Response.encode { coils := [true, false, true, true, false, false, true, true,
        true, true, false, true, false, true, true, false, true, false, true] }).bind
      read_coils.Response.decode).map (fun r => r.coils.take 19) =
      .ok [true, false, true, true, false, false, true, true,
        true, true, false, true, false, true, true, false, true, false, true] ∧
    bindRR (write_multi_reg.Request.encode
        { address := 0xDEAD, values := [0xFADE, 0xFACE, 0x0000, 0x0001] })
      write_multi_reg.Request.decode =
      .ok { address := 0xDEAD, values := [0xFADE, 0xFACE, 0x0000, 0x0001] } :=
  ⟨pdu_codec_roundtrip.1 0x1234 0x00CD (by norm_num) (by norm_num) (by norm_num),
   by
     have h := pdu_codec_roundtrip.2.1 [true, false, true, true, false, false, true, true,
       true, true, false, true, false, true, true, false, true, false, true]
       (by decide) (by decide)
     simpa using h,
   pdu_codec_roundtrip.2.2.2.2.2.2.2.2.2.2.1 0xDEAD [0xFADE, 0xFACE, 0x0000, 0x0001]
     (by norm_num) (by decide) (by decide) (by decide)⟩

/-- C4: for every unit address `u` and PDU `p` of 1..=253 bytes, the RTU
frame encoder produces `u ‖ p ‖ CRC16(u ‖ p)` (low CRC byte first) and the
decoder recomputes the CRC and reproduces the address and the PDU. -/
theorem rtu_frame_roundtrip (u : Nat) (p : List Nat) (hu : u < 256) (hp : ∀ b ∈ p, b < 256)
    (hlo : 1 ≤ p.length) (hhi : p.length ≤ 253) :
    rtu.Frame.encode { address := u, pdu := p } =
      .ok ((u :: p) ++ [rtu.crc16 (u :: p) % 256, rtu.crc16 (u :: p) / 256 % 256]) ∧
    rtu.Frame.decode ((u :: p) ++ [rtu.crc16 (u :: p) % 256, rtu.crc16 (u :: p) / 256 % 256]) =
      .ok { address := u, pdu := p } := by
  have hcrc : rtu.crc16 (u :: p) < 65536 := by
    apply crc16_lt
    intro b hb
    rcases List.mem_cons.mp hb with h | h
    · omega
    · exact hp b h
  constructor
  · rfl
  · have hlen : ((u :: p) ++ [rtu.crc16 (u :: p) % 256, rtu.crc16 (u :: p) / 256 % 256]).length
        = p.length + 3 := by simp
    have hidx : p.length + 3 - 2 = (u :: p).length := by simp
    simp only [rtu.Frame.decode, hlen]
    rw [if_neg (by omega)]
    have htake : ((u :: p) ++ [rtu.crc16 (u :: p) % 256, rtu.crc16 (u :: p) / 256 % 256]).take
        (p.length + 3 - 2) = u :: p := by
      rw [hidx]; exact List.take_left _ _
    have hfst : ((u :: p) ++ [rtu.crc16 (u :: p) % 256, rtu.crc16 (u :: p) / 256 % 256]).getD
        (p.length + 3 - 2) 0 = rtu.crc16 (u :: p) % 256 := by
      rw [hidx]; exact getD_append_fst _ _ _
    have hsnd : ((u :: p) ++ [rtu.crc16 (u :: p) % 256, rtu.crc16 (u :: p) / 256 % 256]).getD
        (p.length + 3 - 1) 0 = rtu.crc16 (u :: p) / 256 % 256 := by
      have : p.length + 3 - 1 = (u :: p).length + 1 := by simp
      rw [this]; exact getD_append_snd _ _ _
    rw [htake, hfst, hsnd, u16le_split hcrc]
    rw [if_neg (by simp)]
    simp

/-- C4 witness: the spec's worked example — unit 2 around the PDU `[0x07]`
encodes to `02 07 41 12` and decodes back. -/
theorem rtu_frame_roundtrip_witness :
    rtu.Frame.encode { address := 2, pdu := [0x07] } = .ok [0x02, 0x07, 0x41, 0x12] ∧
    rtu.Frame.decode [0x02, 0x07, 0x41, 0x12] = .ok { address := 2, pdu := [0x07] } := by
  have h := rtu_frame_roundtrip 2 [0x07] (by decide) (by decide) (by decide) (by decide)
  have hc : rtu.crc16 [2, 0x07] = 0x1241 := by decide
  constructor
  · rw [h.1, hc]
    decide
  · have h2 := h.2
    rw [hc] at h2
    exact h2

/-- C3: for every response decoder `dec` (none of the library's response
decoders ever produces an `ExceptionResponse` error itself — hypothesis
`hdec`, discharged for each concrete decoder below), the shared
`decode_response` yields `Err(ExceptionResponse xx)` exactly when the
buffer has length 2, its first byte is the type's exception function code,
and its second byte converts to the exception code `xx`; and whenever the
exception interpretation fails, the result is exactly the normal decoder's
result. -/
theorem decode_response_exception_iff {α : Type} (excFn : Nat)
    (dec : List Nat → Except Error α) (data : List Nat)
    (hdec : ∀ e, dec data ≠ .error (.exceptionResponse e)) :
    (∀ xx : ExceptionCode,
      decode_response excFn dec data = .error (.exceptionResponse xx) ↔
        (data.length = 2 ∧ data.getD 0 0 = excFn ∧ excTryFrom (data.getD 1 0) = .ok xx)) ∧
    ((decode_exc_rsp data (some excFn)).isOk = false →
      decode_response excFn dec data = dec data) := by
  have hkey : ∀ xx : ExceptionCode, decode_exc_rsp data (some excFn) = .ok xx ↔
      (data.length = 2 ∧ data.getD 0 0 = excFn ∧ excTryFrom (data.getD 1 0) = .ok xx) := by
    intro xx
    unfold decode_exc_rsp
    by_cases hl : data.length = 2
    · rw [if_neg (by omega)]
      show (if data.getD 0 0 ≠ excFn then Except.error Error.invalidData
        else excTryFrom (data.getD 1 0)) = Except.ok xx ↔ _
      by_cases hf : data.getD 0 0 = excFn
      · rw [if_neg (fun hc => hc hf)]
        constructor
        · intro h
          exact ⟨hl, hf, h⟩
        · intro h
          exact h.2.2
      · rw [if_pos hf]
        constructor
        · intro h
          exact absurd h (by simp)
        · intro h
          exact absurd h.2.1 hf
    · rw [if_pos (by omega)]
      constructor
      · intro h
        exact absurd h (by simp)
      · intro h
        exact absurd h.1 hl
  constructor
  · intro xx
    unfold decode_response
    cases hcase : decode_exc_rsp data (some excFn) with
    | ok e =>
      constructor
      · intro h
        have he : e = xx := by
          have := h
          simp only [Except.error.injEq] at this
          cases this
          rfl
        rw [← he, ← hkey e]
        exact hcase
      · intro h
        have : decode_exc_rsp data (some excFn) = .ok xx := (hkey xx).mpr h
        rw [hcase] at this
        simp only [Except.ok.injEq] at this
        rw [this]
    | error err =>
      constructor
      · intro h
        exact absurd h (hdec xx)
      · intro h
        have : decode_exc_rsp data (some excFn) = .ok xx := (hkey xx).mpr h
        rw [hcase] at this
        exact absurd this (by simp)
  · intro h
    unfold decode_response
    cases hcase : decode_exc_rsp data (some excFn) with
    | ok e => rw [hcase] at h; simp [Except.isOk, Except.toBool] at h
    | error err => rfl

/-- C3 witness: the Read Coils response decoder (which never returns
`ExceptionResponse` on its own) together with its exception function code
`0x81` on the buffer `81 02` yields `ExceptionResponse(IllegalDataAddress)`. -/
theorem decode_response_exception_iff_witness :
    decode_response 0x81 read_coils.Response.decode [0x81, 0x02] =
      .error (.exceptionResponse .illegalDataAddress) := by
  have hdec : ∀ e, read_coils.Response.decode [0x81, 0x02] ≠
      .error (.exceptionResponse e) := by
    intro e h
    rw [show read_coils.Response.decode [0x81, 0x02] = .error .invalidDataLength from by decide]
      at h
    simp at h
  exact ((decode_response_exception_iff 0x81 read_coils.Response.decode [0x81, 0x02]
    hdec).1 .illegalDataAddress).mpr (by decide)

/-- C5 counterexample: the claim says a buffer containing exactly
`declared length + 6` bytes decodes to a frame.  The seven-byte buffer
`00 00 00 00 00 01 00` declares length 1, so it is exactly that size, yet
`decode` returns `TooShortData` (the decoder demands at least eight bytes
before acting), not a frame. -/
theorem tcp_frame_exact_length_not_decoded :
    ([0, 0, 0, 0, 0, 1, 0] : List Nat).length = u16be 0 1 + 6 ∧
    tcp.Frame.decode [0, 0, 0, 0, 0, 1, 0] = .error .tooShortData := by
  decide

/-- C5 (amended): `tcp::Frame::decode` first demands at least 8 bytes,
returning `TooShortData` below that regardless of contents; from 8 bytes
on, a nonzero protocol-id field gives `InvalidData`; otherwise, for
declared length fields `L ≤ 0xFFF9` (beyond which the source's `u16`
length arithmetic wraps), a buffer shorter than `L + 6` gives
`TooShortData`, exactly `L + 6` decodes the frame, and longer gives
`InvalidDataLength`. -/
theorem tcp_frame_decode_cases (data : List Nat) :
    (data.length < 8 → tcp.Frame.decode data = .error .tooShortData) ∧
    (8 ≤ data.length → u16be (data.getD 2 0) (data.getD 3 0) ≠ 0 →
      tcp.Frame.decode data = .error .invalidData) ∧
    (8 ≤ data.length → u16be (data.getD 2 0) (data.getD 3 0) = 0 →
      u16be (data.getD 4 0) (data.getD 5 0) ≤ 0xFFF9 →
      data.length < u16be (data.getD 4 0) (data.getD 5 0) + 6 →
      tcp.Frame.decode data = .error .tooShortData) ∧
    (8 ≤ data.length → u16be (data.getD 2 0) (data.getD 3 0) = 0 →
      u16be (data.getD 4 0) (data.getD 5 0) ≤ 0xFFF9 →
      data.length = u16be (data.getD 4 0) (data.getD 5 0) + 6 →
      tcp.Frame.decode data =
        .ok ⟨u16be (data.getD 0 0) (data.getD 1 0), data.getD 6 0, data.drop 7⟩) ∧
    (8 ≤ data.length → u16be (data.getD 2 0) (data.getD 3 0) = 0 →
      u16be (data.getD 4 0) (data.getD 5 0) ≤ 0xFFF9 →
      data.length > u16be (data.getD 4 0) (data.getD 5 0) + 6 →
      tcp.Frame.decode data = .error .invalidDataLength) := by
  refine ⟨?_, ?_, ?_, ?_, ?_⟩
  · intro h
    unfold tcp.Frame.decode
    rw [if_pos h]
  · intro h hp
    unfold tcp.Frame.decode
    rw [if_neg (by omega), if_pos hp]
  · intro h hp hL hlt
    unfold tcp.Frame.decode
    rw [if_neg (by omega), if_neg (by simpa using hp)]
    have hexp : (u16be (data.getD 4 0) (data.getD 5 0) + 6) % 65536
        = u16be (data.getD 4 0) (data.getD 5 0) + 6 := Nat.mod_eq_of_lt (by omega)
    rw [hexp, if_pos hlt]
  · intro h hp hL heq
    unfold tcp.Frame.decode
    rw [if_neg (by omega), if_neg (by simpa using hp)]
    have hexp : (u16be (data.getD 4 0) (data.getD 5 0) + 6) % 65536
        = u16be (data.getD 4 0) (data.getD 5 0) + 6 := Nat.mod_eq_of_lt (by omega)
    rw [hexp, if_neg (by omega), if_neg (by omega)]
  · intro h hp hL hgt
    unfold tcp.Frame.decode
    rw [if_neg (by omega), if_neg (by simpa using hp)]
    have hexp : (u16be (data.getD 4 0) (data.getD 5 0) + 6) % 65536
        = u16be (data.getD 4 0) (data.getD 5 0) + 6 := Nat.mod_eq_of_lt (by omega)
    rw [hexp, if_neg (by omega), if_pos (by omega)]

/-- C5 witness: the spec's MBAP example — 12 bytes with declared length 6
decode to transaction `0x1501`, unit `0xFF` and the 5-byte PDU. -/
theorem tcp_frame_decode_cases_witness :
    tcp.Frame.decode [0x15, 0x01, 0x00, 0x00, 0x00, 0x06, 0xFF, 0x03, 0x00, 0x04, 0x00, 0x01] =
      .ok { transaction_id := 0x1501, unit_id := 0xFF,
            pdu := [0x03, 0x00, 0x04, 0x00, 0x01] } := by
  have h := (tcp_frame_decode_cases
    [0x15, 0x01, 0x00, 0x00, 0x00, 0x06, 0xFF, 0x03, 0x00, 0x04, 0x00, 0x01]).2.2.2.1
    (by decide) (by decide) (by decide) (by decide)
  rw [h]
  decide

/-- C6 counterexample: the claim says decoding a Read Coils request fails
whenever the quantity field exceeds 2000; the decoder accepts quantity
`0xabcd` (the repository's own unit test `test_decode_read_coils_request`
asserts exactly this). -/
theorem rc_decode_ignores_quantity_bound :
    read_coils.Request.decode [0x01, 0x12, 0x34, 0xab, 0xcd] =
      .ok { address := 0x1234, quantity := 0xabcd } ∧ 2000 < 0xabcd := by
  decide

/-- C6 (amended): for Read Coils and Read Discrete Inputs, the quantity
bound `1..=2000` is enforced on encode only — encoding fails with
`InvalidValue` exactly when the quantity is 0 or above 2000 — while
decoding a 5-byte request with the correct function byte succeeds for
every quantity field, no bound checked. -/
theorem read_bits_quantity_bounds (a q b1 b2 b3 b4 : Nat) :
    (read_coils.Request.encode { address := a, quantity := q } = .error .invalidValue ↔
      (q = 0 ∨ 2000 < q)) ∧
    (read_dscr_in.Request.encode { address := a, quantity := q } = .error .invalidValue ↔
      (q = 0 ∨ 2000 < q)) ∧
    read_coils.Request.decode [0x01, b1, b2, b3, b4] =
      .ok { address := u16be b1 b2, quantity := u16be b3 b4 } ∧
    read_dscr_in.Request.decode [0x02, b1, b2, b3, b4] =
      .ok { address := u16be b1 b2, quantity := u16be b3 b4 } := by
  refine ⟨?_, ?_, ?_, ?_⟩
  · unfold read_coils.Request.encode
    dsimp only
    split_ifs with hc
    · exact iff_of_false (by simp) (by omega)
    · exact iff_of_true rfl (by omega)
  · unfold read_dscr_in.Request.encode
    dsimp only
    split_ifs with hc
    · exact iff_of_false (by simp) (by omega)
    · exact iff_of_true rfl (by omega)
  · unfold read_coils.Request.decode
    simp [List.getD]
  · unfold read_dscr_in.Request.decode
    simp [List.getD]

/-- C6 witness: quantity 0 is rejected by the Read Coils request encoder,
and a quantity field of 4000 (above the bound) still decodes. -/
theorem read_bits_quantity_bounds_witness :
    read_coils.Request.encode { address := 0, quantity := 0 } = .error .invalidValue ∧
    read_coils.Request.decode [0x01, 0x00, 0x00, 0x0F, 0xA0] =
      .ok { address := 0, quantity := 4000 } := by
  have h := read_bits_quantity_bounds 0 0 0x00 0x00 0x0F 0xA0
  refine ⟨h.1.mpr (Or.inl rfl), ?_⟩
  rw [h.2.2.1]
  decide

/-- C7: the claim says a response encoder fails with `InvalidValue`
whenever the encoded response would exceed `MAX_SIZE = 253`, and that a
Read Discrete Inputs response with byte count up to `MAX_SIZE - 2 = 251`
encodes.  The code does neither: `read_in_reg::Response::encode` performs
no size check at all — 130 registers encode to an `Ok` 262-byte PDU whose
byte-count field has wrapped to `4` — and `read_dscr_in::Response::encode`
caps the byte count at `MAX_SIZE - 3 = 250`, rejecting 2001 inputs
(byte count 251) with `InvalidValue`. -/
theorem rsp_encode_size_checks_diverge :
    read_in_reg.Response.encode { registers := List.replicate 130 0 } =
      .ok (0x04 :: 4 :: regsToBytes (List.replicate 130 0)) ∧
    (0x04 :: 4 :: regsToBytes (List.replicate 130 0)).length = 262 ∧
    read_dscr_in.Response.encode { inputs := List.replicate 2001 true } =
      .error .invalidValue ∧
    dscrByteCount (List.replicate 2001 true).length = 251 := by
  refine ⟨?_, ?_, ?_, ?_⟩
  · simp only [read_in_reg.Response.encode, List.length_replicate]
  · simp only [List.length_cons, regsToBytes_length, List.length_replicate]
  · show (if 1 ≤ dscrByteCount (List.replicate 2001 true).length ∧
        dscrByteCount (List.replicate 2001 true).length ≤ 250 then
        Except.ok (0x02 :: dscrByteCount (List.replicate 2001 true).length ::
          packBits (List.replicate 2001 true)) else Except.error Error.invalidValue)
      = Except.error Error.invalidValue
    rw [List.length_replicate]
    rw [if_neg (by decide)]
  · rw [List.length_replicate]
    decide

/-- C8 counterexample: the claim says the dispatcher supports the §4.1
table's function code 0x10 (Write Multiple Registers).  The eight-byte
buffer below is a well-formed Write Multiple Registers request (its own
decoder accepts it), yet `decode_req` answers `InvalidData`: the
`FunctionCode` enum and `RequestData` union of `src/pdu/mod.rs` have no
Write Multiple Registers variant. -/
theorem decode_req_rejects_write_multi :
    write_multi_reg.Request.decode [0x10, 0x00, 0x00, 0x00, 0x01, 0x02, 0xab, 0xcd] =
      .ok { address := 0, values := [0xabcd] } ∧
    decode_req [0x10, 0x00, 0x00, 0x00, 0x01, 0x02, 0xab, 0xcd] = .error .invalidData := by
  decide

/-- C8 (amended): `decode_req` dispatches exactly the six request codes
0x01..0x06, wrapping each decoder's result in the matching `RequestData`
variant; every other leading byte — including 0x10 — yields
`InvalidData`, except that PDUs shorter than two bytes yield
`InvalidDataLength` before the function byte is examined. -/
theorem decode_req_dispatch (pdu : List Nat) :
    (pdu.length < 2 → decode_req pdu = .error .invalidDataLength) ∧
    (2 ≤ pdu.length → pdu.getD 0 0 = 0x01 →
      decode_req pdu = (read_coils.Request.decode pdu).map .readCoils) ∧
    (2 ≤ pdu.length → pdu.getD 0 0 = 0x02 →
      decode_req pdu = (read_dscr_in.Request.decode pdu).map .readDscrIn) ∧
    (2 ≤ pdu.length → pdu.getD 0 0 = 0x03 →
      decode_req pdu = (read_hld_reg.Request.decode pdu).map .readHldReg) ∧
    (2 ≤ pdu.length → pdu.getD 0 0 = 0x04 →
      decode_req pdu = (read_in_reg.Request.decode pdu).map .readInReg) ∧
    (2 ≤ pdu.length → pdu.getD 0 0 = 0x05 →
      decode_req pdu = (write_single_coil.Message.decode pdu).map .writeSingleCoil) ∧
    (2 ≤ pdu.length → pdu.getD 0 0 = 0x06 →
      decode_req pdu = (write_single_reg.Message.decode pdu).map .writeSingleReg) ∧
    (2 ≤ pdu.length → pdu.getD 0 0 ∉ ([0x01, 0x02, 0x03, 0x04, 0x05, 0x06] : List Nat) →
      decode_req pdu = .error .invalidData) := by
  refine ⟨?_, ?_, ?_, ?_, ?_, ?_, ?_, ?_⟩
  · intro h
    unfold decode_req
    rw [if_pos h]
  · intro h hc
    unfold decode_req
    rw [if_neg (by omega), if_pos hc]
  · intro h hc
    unfold decode_req
    rw [if_neg (by omega), if_neg (by omega), if_pos hc]
  · intro h hc
    unfold decode_req
    rw [if_neg (by omega), if_neg (by omega), if_neg (by omega), if_pos hc]
  · intro h hc
    unfold decode_req
    rw [if_neg (by omega), if_neg (by omega), if_neg (by omega), if_neg (by omega), if_pos hc]
  · intro h hc
    unfold decode_req
    rw [if_neg (by omega), if_neg (by omega), if_neg (by omega), if_neg (by omega),
      if_neg (by omega), if_pos hc]
  · intro h hc
    unfold decode_req
    rw [if_neg (by omega), if_neg (by omega), if_neg (by omega), if_neg (by omega),
      if_neg (by omega), if_neg (by omega), if_pos hc]
  · intro h hc
    simp only [List.mem_cons, List.mem_singleton] at hc
    push_neg at hc
    obtain ⟨h1, h2, h3, h4, h5, h6, -⟩ := hc
    unfold decode_req
    rw [if_neg (by omega), if_neg h1, if_neg h2, if_neg h3, if_neg h4, if_neg h5, if_neg h6]

/-- C8 witness: a Read Coils request PDU dispatches to the `ReadCoils`
variant of `RequestData`. -/
theorem decode_req_dispatch_witness :
    decode_req [0x01, 0x00, 0x0a, 0x00, 0x04] =
      .ok (.readCoils { address := 0x000a, quantity := 0x0004 }) := by
  have h := (decode_req_dispatch [0x01, 0x00, 0x0a, 0x00, 0x04]).2.1 (by decide) (by decide)
  rw [h]
  decide

/-- C9: decoding a 5-byte Write Single Coil PDU (function byte 0x05)
fails with `InvalidData` whenever its 16-bit value field is neither
`0x0000` nor `0xFF00`; the value `0x0000` decodes to `false` and `0xFF00`
decodes to `true`, each with the transmitted address. -/
theorem wsc_decode_value_check (b1 b2 v1 v2 : Nat) (_hb1 : b1 < 256) (_hb2 : b2 < 256)
    (_hv1 : v1 < 256) (_hv2 : v2 < 256) :
    (u16be v1 v2 ≠ 0x0000 → u16be v1 v2 ≠ 0xFF00 →
      write_single_coil.Message.decode [0x05, b1, b2, v1, v2] = .error .invalidData) ∧
    write_single_coil.Message.decode [0x05, b1, b2, 0x00, 0x00] =
      .ok { address := u16be b1 b2, value := false } ∧
    write_single_coil.Message.decode [0x05, b1, b2, 0xFF, 0x00] =
      .ok { address := u16be b1 b2, value := true } := by
  refine ⟨?_, ?_, ?_⟩
  · intro hz hff
    unfold write_single_coil.Message.decode
    simp only [List.length_cons, List.length_nil, List.getD_cons_zero, List.getD_cons_succ]
    norm_num
    rw [if_neg hz, if_neg hff]
  · unfold write_single_coil.Message.decode
    simp only [List.length_cons, List.length_nil, List.getD_cons_zero, List.getD_cons_succ]
    norm_num [u16be]
  · unfold write_single_coil.Message.decode
    simp only [List.length_cons, List.length_nil, List.getD_cons_zero, List.getD_cons_succ]
    norm_num [u16be]

/-- C9 witness: the spec's scenario — `05 01 23 00 01` (value field
`0x0001`) fails with `InvalidData`. -/
theorem wsc_decode_value_check_witness :
    write_single_coil.Message.decode [0x05, 0x01, 0x23, 0x00, 0x01] = .error .invalidData :=
  (wsc_decode_value_check 0x01 0x23 0x00 0x01 (by norm_num) (by norm_num) (by norm_num)
    (by norm_num)).1 (by decide) (by decide)

/-- C10 counterexample: the claim says `start_slave` fails with
`InvalidValue` for unit id 0 on both transports.  The TCP
`Tcp::start_slave` performs no validation: with unit id 0 it succeeds,
stores the unit id and binds the listener. -/
theorem tcp_start_slave_accepts_zero :
    tcp.start_slave 0 { unit_id := 255, listener_bound := false } =
      (.ok (), { unit_id := 0, listener_bound := true }) := by
  decide

/-- C10 (amended): RTU `start_slave` accepts exactly the unit ids
1..=247, setting the role to `Slave(unit_id)`, and fails with
`InvalidValue` leaving the role unchanged otherwise; TCP `start_slave`
accepts every unit id without validation, storing it and binding the
listener. -/
theorem start_slave_unit_validation (u : Nat) (hu : u < 256) (role : rtu.Role)
    (s : tcp.State) :
    (1 ≤ u → u ≤ 247 → rtu.start_slave u role = (.ok (), .slave u)) ∧
    ((u = 0 ∨ 248 ≤ u) → rtu.start_slave u role = (.error .invalidValue, role)) ∧
    tcp.start_slave u s = (.ok (), { unit_id := u, listener_bound := true }) := by
  refine ⟨?_, ?_, rfl⟩
  · intro h1 h2
    unfold rtu.start_slave
    rw [if_pos ⟨h1, h2⟩]
  · intro h
    unfold rtu.start_slave
    rw [if_neg (by omega)]

/-- C10 witness: RTU accepts unit 10 and rejects unit 0. -/
theorem start_slave_unit_validation_witness :
    rtu.start_slave 10 .master = (.ok (), .slave 10) ∧
    rtu.start_slave 0 .master = (.error .invalidValue, .master) :=
  ⟨(start_slave_unit_validation 10 (by norm_num) .master
      { unit_id := 255, listener_bound := false }).1 (by norm_num) (by norm_num),
   (start_slave_unit_validation 0 (by norm_num) .master
      { unit_id := 255, listener_bound := false }).2.1 (Or.inl rfl)⟩

end Modbus
